import Mathlib

set_option maxHeartbeats 1000000
set_option maxRecDepth 4000

/-!
Shallow embedding of the cybersec-chatbot-mvp backend
(`backend/content_processor.py`, `backend/app/chatbot.py`,
`backend/app/main.py`) and proofs about its specified behaviour.

Modelling conventions:
* Python strings are Lean `String`s; character-level operations go through
  `String.toList` so that everything is executable and kernel-reducible.
* Embedding vectors are `List Int` (no claim depends on float arithmetic,
  only on emptiness and equality of vectors), and Python truthiness of a
  list is modelled as `≠ []`.
* External backends (OpenAI embedder and LLM, chromadb query) are function
  parameters; a fallible backend returns `Except String α` and a raised
  exception is the `.error` case.
* Side effects that matter to the claims (index calls, chatbot-call counts,
  conversation state) are threaded explicitly through return values.
-/

/-! ## Python string primitives -/

/-- Python whitespace characters (`str.strip`, `str.split`, regex `\s`),
restricted to the ASCII range that the corpus uses. -/
def isPySpace (c : Char) : Bool :=
  c = ' ' || c = '\t' || c = '\n' || c = '\r' || c = '\x0b' || c = '\x0c'

/-- Python `str.strip()` on a character list: drop leading and trailing whitespace. -/
def pyStripList (l : List Char) : List Char :=
  ((l.dropWhile isPySpace).reverse.dropWhile isPySpace).reverse

/-- Python `s.strip()`. -/
def pyStrip (s : String) : String :=
  String.mk (pyStripList s.toList)

/-- Helper for `str.split()` with no separator: accumulate the current word
(reversed) and split on whitespace runs. -/
def pyWords : List Char → List Char → List (List Char)
  | [], w => if w = [] then [] else [w.reverse]
  | c :: cs, w =>
    if isPySpace c then
      if w = [] then pyWords cs [] else w.reverse :: pyWords cs []
    else
      pyWords cs (c :: w)

/-- Python `s.split()` (no argument): whitespace runs separate words, and
leading/trailing whitespace yields no empty words. -/
def pySplit (s : String) : List String :=
  (pyWords s.toList []).map String.mk

/-- Python `s.lower()` (ASCII range). -/
def pyLower (s : String) : String :=
  String.mk (s.toList.map Char.toLower)

/-- Does `l` start with `pat`? (helper for Python substring membership). -/
def listStartsWith : List Char → List Char → Bool
  | _, [] => true
  | [], _ :: _ => false
  | c :: cs, d :: ds => c = d && listStartsWith cs ds

/-- Does `pat` occur as a contiguous substring of `l`? -/
def listContainsSub : List Char → List Char → Bool
  | [], pat => pat.isEmpty
  | c :: cs, pat => listStartsWith (c :: cs) pat || listContainsSub cs pat

/-- Python `needle in hay` on strings. -/
def containsSub (hay needle : String) : Bool :=
  listContainsSub hay.toList needle.toList

/-! ## `content_processor.py` — `ContentProcessor.split_into_sections` -/

/-- One element of the list returned by `split_into_sections`:
the dict `{"heading": ..., "content": ..., "word_count": ...}`. -/
structure SectionRec where
  heading : String
  content : String
  word_count : Nat
deriving Repr, DecidableEq

/-- Source regex `re.match(r"^\s*(==+)\s+(.*)", line)`: optional leading whitespace, two
or more `=`, at least one whitespace character, then the rest of the line.
Returns `group(2)`, which (after the greedy `\s+`) starts at the first
non-whitespace character following the `=` run. -/
def headingMatch (line : String) : Option String :=
  let cs := line.toList.dropWhile isPySpace
  let eqs := cs.takeWhile (fun c => c = '=')
  if 2 ≤ eqs.length then
    match cs.dropWhile (fun c => c = '=') with
    | [] => none
    | c :: rest => if isPySpace c then some (String.mk (rest.dropWhile isPySpace)) else none
  else none

/-- The section-append step shared by the loop body and the final flush:
`if current_section and current_heading and current_section.strip():` append
`{"heading": current_heading, "content": current_section.strip(),
"word_count": len(current_section.split())}`. -/
def flushSection (sections : List SectionRec) (current_section : String)
    (current_heading : Option String) : List SectionRec :=
  match current_heading with
  | some h =>
    if current_section ≠ "" ∧ h ≠ "" ∧ pyStrip current_section ≠ "" then
      sections ++ [⟨h, pyStrip current_section, (pySplit current_section).length⟩]
    else sections
  | none => sections

/-- The `for line in lines` loop of `split_into_sections`, followed by the
final flush of the last section. State: emitted sections, accumulated
`current_section` text, and `current_heading` (`none` models Python `None`). -/
def sectionsLoop : List String → List SectionRec → String → Option String → List SectionRec
  | [], sections, current_section, current_heading =>
      flushSection sections current_section current_heading
  | line :: rest, sections, current_section, current_heading =>
    match headingMatch line with
    | some g2 =>
        sectionsLoop rest (flushSection sections current_section current_heading)
          "" (some (pyStrip g2))
    | none =>
        sectionsLoop rest sections (current_section ++ (line ++ "\n")) current_heading

/-- Function `split_into_sections` on an already-split line list. -/
def sectionsOfLines (lines : List String) : List SectionRec :=
  sectionsLoop lines [] "" none

/-- Source `ContentProcessor.split_into_sections(content)`:
`lines = content.split('\n')`, then the accumulation loop. -/
def split_into_sections (content : String) : List SectionRec :=
  sectionsOfLines (content.split (fun c => c = '\n'))

/-- The text accumulated from a run of non-heading lines: each line
contributes `line + '\n'`. -/
def joinNl : List String → String
  | [] => ""
  | l :: ls => l ++ "\n" ++ joinNl ls

/-- A heading line of depth `n + 2`: `n + 2` copies of `=` followed by a
space and arbitrary text, used to state depth-irrelevance. -/
def headingLine (n : Nat) (t : String) : String :=
  String.mk (List.replicate (n + 2) '=') ++ " " ++ t

/-! ## `chatbot.py` — data model of the processed corpus and the index -/

/-- One entry of a `"sections"` array in the processed-content JSON:
heading, content, word count and the section embedding (empty list models a
missing / falsy embedding, exactly the `section.get("embedding")` check). -/
structure StoredSection where
  heading : String
  content : String
  word_count : Nat
  embedding : List Int
deriving Repr, DecidableEq

/-- The `"metadata"` object of a processed file. -/
structure FileMetadataJson where
  platform : String
  difficulty : String
  topics : List String
deriving Repr, DecidableEq

/-- One element of the processed-content JSON array (`file_data`). -/
structure FileData where
  title : String
  file_path : String
  sections : List StoredSection
  metadata : FileMetadataJson
deriving Repr, DecidableEq

/-- The metadata dict attached to each indexed section in
`load_processed_content` (and returned verbatim by collection queries). -/
structure PointMeta where
  title : String
  heading : String
  platform : String
  difficulty : String
  topics : String
  word_count : Nat
  file_path : String
deriving Repr, DecidableEq

/-- Source `file_data["title"].replace(' ', '_')`. -/
def underscoreTitle (title : String) : String :=
  String.mk (title.toList.map (fun c => if c = ' ' then '_' else c))

/-- Source f-string: the underscored title, an underscore, then the index `i`. -/
def sectionId (title : String) (i : Nat) : String :=
  underscoreTitle title ++ "_" ++ toString i

/-- The (document, embedding, metadata) triple stored for one section. -/
structure IndexedPoint where
  document : String
  embedding : List Int
  metadata : PointMeta
deriving Repr, DecidableEq

/-- Loop `for i, section in enumerate(file_data["sections"])`: sections with a
truthy embedding become `(id, point)` pairs, id carrying the enumeration
index of the section in the full section list. -/
def filePointsAux (fd : FileData) : Nat → List StoredSection → List (String × IndexedPoint)
  | _, [] => []
  | i, s :: rest =>
    if s.embedding ≠ [] then
      (sectionId fd.title i,
        { document := s.content
          embedding := s.embedding
          metadata :=
            { title := fd.title
              heading := s.heading
              platform := fd.metadata.platform
              difficulty := fd.metadata.difficulty
              topics := String.intercalate "," fd.metadata.topics
              word_count := s.word_count
              file_path := fd.file_path } }) :: filePointsAux fd (i + 1) rest
    else filePointsAux fd (i + 1) rest

/-- All `(id, point)` pairs produced from one processed file. -/
def filePoints (fd : FileData) : List (String × IndexedPoint) :=
  filePointsAux fd 0 fd.sections

/-- All `(id, point)` pairs of a corpus, in file order then section order —
the order in which `load_processed_content` hands them to the collection
(the batching by 100 preserves this per-item order). -/
def corpusPoints (corpus : List FileData) : List (String × IndexedPoint) :=
  corpus.flatMap filePoints

/-- Modelled from the spec: the Vector Index itself is the external chromadb
collection, which is not part of src/. Spec section 4.3 gives its contract:
a persisted keyed store where writing an existing id overwrites that entry
(idempotent upsert) and a new id is appended. -/
def collectionUpsert (coll : List (String × IndexedPoint)) (id : String)
    (pt : IndexedPoint) : List (String × IndexedPoint) :=
  if coll.any (fun e => e.1 = id) then
    coll.map (fun e => if e.1 = id then (id, pt) else e)
  else coll ++ [(id, pt)]

/-- The ids currently present in the collection, in storage order. -/
def collectionIds (coll : List (String × IndexedPoint)) : List String :=
  coll.map Prod.fst

/-- Source `CybersecurityChatbot.load_processed_content`: write every embedded
section of the corpus into the collection, in order. -/
def load_processed_content (coll : List (String × IndexedPoint))
    (corpus : List FileData) : List (String × IndexedPoint) :=
  (corpusPoints corpus).foldl (fun c p => collectionUpsert c p.1 p.2) coll

/-! ## `chatbot.py` — retrieval -/

/-- The dict shape returned by `collection.query` and by the degraded
branches of `search_relevant_content`: one inner list per query embedding. -/
structure QueryResult where
  documents : List (List String)
  metadatas : List (List PointMeta)
deriving Repr, DecidableEq

/-- Degraded result `{"documents": [[]], "metadatas": [[]]}`. -/
def emptyQueryResult : QueryResult :=
  { documents := [[]], metadatas := [[]] }

/-- Source `where_clause = {}` / `if platform: where_clause["platform"] = platform`
/ `where=where_clause if where_clause else None`: the platform filter that
actually reaches `collection.query`. `none` models both Python `None` and
the empty dict; Python truthiness makes `""` fall through to `none`. -/
def build_where_clause (platform : Option String) : Option String :=
  match platform with
  | some p => if p = "" then none else some p
  | none => none

/-- A recorded call to `collection.query`, with its arguments. -/
structure IndexCall where
  query_embedding : List Int
  whereFilter : Option String
  n_results : Nat
deriving Repr, DecidableEq

/-- Source `CybersecurityChatbot.search_relevant_content`, instrumented with the
list of calls made to the collection. `create_embedding` is the OpenAI
embedder (degraded failure returns `[]`); `collectionQuery` is the chromadb
query, whose raised exceptions are the `.error` case. -/
def search_relevant_content (create_embedding : String → List Int)
    (collectionQuery : List Int → Option String → Nat → Except String QueryResult)
    (query : String) (platform : Option String) (n_results : Nat) :
    QueryResult × List IndexCall :=
  let query_embedding := create_embedding query
  if query_embedding = [] then (emptyQueryResult, [])
  else
    let where_clause := build_where_clause platform
    match collectionQuery query_embedding where_clause n_results with
    | Except.ok results => (results, [⟨query_embedding, where_clause, n_results⟩])
    | Except.error _ => (emptyQueryResult, [⟨query_embedding, where_clause, n_results⟩])

/-! ## `chatbot.py` — prompt composition and generation -/

/-- Table of `get_platform_context`: the fixed `platform_contexts` dict. -/
def platform_contexts : List (String × String) :=
  [("picoCTF", "Focus on CTF competition format, educational challenges, and step-by-step problem solving. Emphasize learning fundamentals."),
   ("hackthebox", "Emphasize penetration testing methodology, realistic attack scenarios, and professional red team techniques."),
   ("tryhackme", "Highlight guided learning paths, structured rooms, and hands-on practice with clear objectives."),
   ("general", "Provide general cybersecurity education applicable across different learning platforms and contexts.")]

/-- Lookup `platform_contexts.get(platform, platform_contexts["general"])`; a
`None` platform is not a key, so it also falls back to the general entry. -/
def get_platform_context (platform : Option String) : String :=
  match platform with
  | some p =>
    match platform_contexts.find? (fun e => e.1 = p) with
    | some e => e.2
    | none => "Provide general cybersecurity education applicable across different learning platforms and contexts."
  | none => "Provide general cybersecurity education applicable across different learning platforms and contexts."

/-- Source `zip(context["documents"][0], context["metadatas"][0])`, guarded by
`if context["documents"] and context["documents"][0]`. The metadata list is
only read when the document list is nonempty; every `QueryResult` built in
this development carries the two lists in parallel. -/
def context_entries (ctx : QueryResult) : List (String × PointMeta) :=
  match ctx.documents, ctx.metadatas with
  | d0 :: _, m0 :: _ => if d0 = [] then [] else d0.zip m0
  | _, _ => []

/-- Source f-string: the heading in bold, the title, then the document on its own line. -/
def render_context_section (doc : String) (metadata : PointMeta) : String :=
  "**" ++ metadata.heading ++ "** (from " ++ metadata.title ++ "):\n" ++ doc

/-- Source `context_text` join: blank-line join of the first 3 rendered sections. -/
def build_context_text (ctx : QueryResult) : String :=
  String.intercalate "\n\n"
    (((context_entries ctx).map (fun pr => render_context_section pr.1 pr.2)).take 3)

/-- One conversation-history entry (`conversation_entry` dict /
`ConversationEntry` pydantic model). -/
structure ConversationEntry where
  user : String
  bot : String
  timestamp : String
  platform : Option String
  sources_used : Nat
deriving Repr, DecidableEq

/-- Source f-string: the user text, then the bot text clipped to its first 200 characters plus an ellipsis. -/
def render_history_entry (h : ConversationEntry) : String :=
  "User: " ++ h.user ++ "\nAssistant: " ++ String.mk (h.bot.toList.take 200) ++ "..."

/-- Source `history_context`: empty when no history, otherwise the last 3 entries
(`conversation_history[-3:]`), rendered and joined with newlines. -/
def build_history_context (conversation_history : List ConversationEntry) : String :=
  if conversation_history = [] then ""
  else
    String.intercalate "\n"
      ((conversation_history.drop (conversation_history.length - 3)).map render_history_entry)

/-- The system-prompt text before `{platform_context}`. -/
def promptPersona : String :=
  "You are CyberMentor, a friendly and knowledgeable cybersecurity tutor designed to help beginners learn cybersecurity concepts.\n\nYour personality:\n- Encouraging and supportive\n- Enthusiastic about cybersecurity\n- Patient with beginners\n- Use analogies and real-world examples\n- Avoid overwhelming technical jargon\n\nPlatform context: "

/-- The system-prompt text between `{platform_context}` and `{context_text}`. -/
def promptTeaching : String :=
  "\n\nYour teaching approach:\n1. Start with a simple, clear explanation\n2. Use analogies when helpful (like comparing buffer overflows to overfilling a cup)\n3. Connect concepts to real-world cybersecurity incidents\n4. Provide practical next steps for learning\n5. Encourage hands-on practice\n\nAvailable knowledge base:\n"

/-- The system-prompt text between `{context_text}` and `{history_context}`. -/
def promptHistoryHeader : String :=
  "\n\nRecent conversation context:\n"

/-- The system-prompt text after `{history_context}`. -/
def promptGuidelines : String :=
  "\n\nGuidelines:\n- Keep responses under 300 words for better readability\n- Use bullet points for lists or steps\n- Include encouragement and motivation\n- If you don\x27t know something, admit it and suggest how to find out\n- Always relate concepts back to practical cybersecurity skills"

/-- The `system_prompt` f-string of `generate_response`. -/
def system_prompt (context_text platform_context history_context : String) : String :=
  promptPersona ++ platform_context ++ promptTeaching ++ context_text ++
    promptHistoryHeader ++ history_context ++ promptGuidelines

/-- The fixed apology returned when the generation backend raises. -/
def apology : String :=
  "I\x27m having trouble generating a response right now. Please try again in a moment."

/-- Source `CybersecurityChatbot.generate_response`. `llm system_prompt query` is
the `chat.completions.create` call (system message, user message); any
raised exception is the `.error` case and degrades to the apology. -/
def generate_response (llm : String → String → Except String String)
    (query : String) (context : QueryResult) (platform : Option String)
    (conversation_history : List ConversationEntry) : String :=
  let context_text := build_context_text context
  let platform_context := get_platform_context platform
  let history_context := build_history_context conversation_history
  match llm (system_prompt context_text platform_context history_context) query with
  | Except.ok r => r
  | Except.error _ => apology

/-! ## `chatbot.py` — real-world-context annotation -/

/-- The `real_world_examples` dict, in insertion (= iteration) order. -/
def real_world_examples : List (String × String) :=
  [("sql", "💡 **Real-world impact**: SQL injection was used in major breaches like Equifax (2017) and continues to be a top web vulnerability."),
   ("xss", "💡 **Real-world impact**: Cross-site scripting affects 64% of web applications and was used in attacks against Twitter and Facebook."),
   ("buffer", "💡 **Real-world impact**: Buffer overflows were behind major vulnerabilities like Heartbleed and many Windows security patches."),
   ("crypto", "💡 **Real-world impact**: Weak cryptography led to breaches at Adobe (2013) and continues to expose sensitive data."),
   ("steganography", "💡 **Real-world impact**: Steganography has been used by cybercriminals to hide malware and by nation-state actors for covert communication."),
   ("network", "💡 **Real-world impact**: Network attacks like man-in-the-middle were used in major corporate espionage cases.")]

/-- Loop `for keyword, example in real_world_examples.items(): if keyword in
topic_lower: return example`. -/
def firstKeywordHit : List (String × String) → String → Option String
  | [], _ => none
  | (k, v) :: rest, topic_lower =>
    if containsSub topic_lower k then some v else firstKeywordHit rest topic_lower

/-- Source `CybersecurityChatbot.add_real_world_context`. -/
def add_real_world_context (topic : String) : Option String :=
  firstKeywordHit real_world_examples (pyLower topic)

/-! ## `chatbot.py` — the chat orchestrator -/

/-- The external collaborators of one `CybersecurityChatbot` instance plus
the clock (`datetime.now().isoformat()`). -/
structure ChatDeps where
  create_embedding : String → List Int
  collectionQuery : List Int → Option String → Nat → Except String QueryResult
  llm : String → String → Except String String
  now : String

/-- The observable steps of one `chat` call, in execution order. -/
inductive ChatEvent where
  | retrieveEv
  | generateEv
  | annotateEv
  | appendEv
deriving Repr, DecidableEq

/-- Everything one `chat` call produces: the returned dict fields, the new
conversation history, and the ordered step trace. -/
structure ChatOut where
  response : String
  timestamp : String
  sources_used : Nat
  history : List ConversationEntry
  events : List ChatEvent
deriving Repr, DecidableEq

/-- Source `CybersecurityChatbot.chat`: search, generate, annotate (the annotation
is appended to the response BEFORE the turn is stored), build the
conversation entry, append it, return. The event trace records the order of
the four steps as they appear in the source. -/
def chat (d : ChatDeps) (conversation_history : List ConversationEntry)
    (user_message : String) (platform : Option String) : ChatOut :=
  let relevant_content :=
    (search_relevant_content d.create_embedding d.collectionQuery user_message platform 5).1
  let response0 := generate_response d.llm user_message relevant_content platform conversation_history
  let response :=
    match add_real_world_context user_message with
    | some c => response0 ++ "\n\n" ++ c
    | none => response0
  let sources_used :=
    match relevant_content.documents with
    | [] => 0
    | d0 :: _ => d0.length
  let entry : ConversationEntry :=
    { user := user_message
      bot := response
      timestamp := d.now
      platform := platform
      sources_used := sources_used }
  { response := response
    timestamp := entry.timestamp
    sources_used := entry.sources_used
    history := conversation_history ++ [entry]
    events := [ChatEvent.retrieveEv, ChatEvent.generateEv, ChatEvent.annotateEv, ChatEvent.appendEv] }

/-! ## `main.py` — the `/chat` endpoint -/

/-- The `ChatRequest` pydantic model. -/
structure ChatRequest where
  message : String
  platform : Option String
deriving Repr, DecidableEq

/-- A raised `fastapi.HTTPException` (a subclass of `Exception`). -/
inductive PyExc where
  | httpException (status : Nat) (detail : String)
deriving Repr, DecidableEq

/-- Python `str(e)` for an `HTTPException`: `f"{status_code}: {detail}"`. -/
def strOfExc : PyExc → String
  | PyExc.httpException s d => toString s ++ ": " ++ d

/-- What the endpoint hands back to the HTTP layer. -/
inductive EndpointResult where
  | ok (response : String) (timestamp : String) (sources_used : Nat)
  | httpError (status : Nat) (detail : String)
deriving Repr, DecidableEq

/-- The `try:` body of `chat_endpoint`: raise `HTTPException(400, "Message
cannot be empty")` for an empty or whitespace-only message, otherwise call
`chatbot_wrapper.chat`. -/
def chat_endpoint_try (d : ChatDeps) (conversation_history : List ConversationEntry)
    (req : ChatRequest) : Except PyExc ChatOut :=
  if req.message = "" ∨ pyStrip req.message = "" then
    Except.error (PyExc.httpException 400 "Message cannot be empty")
  else Except.ok (chat d conversation_history req.message req.platform)

/-- Endpoint `chat_endpoint` of `main.py`. The blanket `except Exception as e:`
catches EVERY exception raised in the body — including the very
400 `HTTPException`, since `HTTPException` subclasses `Exception` — and
re-raises it as `HTTPException(500, f"Error processing chat: {str(e)}")`.
Returns the endpoint result, the conversation history afterwards, and the
number of `chatbot.chat` calls made. -/
def chat_endpoint (d : ChatDeps) (conversation_history : List ConversationEntry)
    (req : ChatRequest) : EndpointResult × List ConversationEntry × Nat :=
  match chat_endpoint_try d conversation_history req with
  | Except.ok r => (EndpointResult.ok r.response r.timestamp r.sources_used, r.history, 1)
  | Except.error e =>
      (EndpointResult.httpError 500 ("Error processing chat: " ++ strOfExc e),
        conversation_history, 0)

/-! ## Concrete fixtures used by witnesses and counterexamples -/

/-- A collection query that always succeeds with an empty result. -/
def stubCollectionQuery : List Int → Option String → Nat → Except String QueryResult :=
  fun _ _ _ => Except.ok emptyQueryResult

/-- Healthy-looking dependencies: degraded embedder, stub index, stub LLM. -/
def stubDeps : ChatDeps :=
  { create_embedding := fun _ => []
    collectionQuery := stubCollectionQuery
    llm := fun _ _ => Except.ok "A stub answer."
    now := "2026-01-01T00:00:00" }

/-- Dependencies whose generation backend always raises. -/
def failingDeps : ChatDeps :=
  { create_embedding := fun _ => []
    collectionQuery := fun _ _ _ => Except.error "collection down"
    llm := fun _ _ => Except.error "rate limited"
    now := "2026-02-02T00:00:00" }

/-- A small processed file: one embedded section, one section without an
embedding. -/
def sampleFile : FileData :=
  { title := "Intro to CTF"
    file_path := "chapter1.adoc"
    sections :=
      [{ heading := "Basics", content := "SQL injection basics", word_count := 3,
         embedding := [1, 2] },
       { heading := "Skipped", content := "no embedding here", word_count := 3,
         embedding := [] }]
    metadata := { platform := "picoCTF", difficulty := "beginner", topics := ["web_security"] } }

/-- A retrieval-result metadata fixture. -/
def sampleMeta : PointMeta :=
  { title := "Intro", heading := "Basics", platform := "picoCTF", difficulty := "beginner",
    topics := "web_security", word_count := 3, file_path := "chapter1.adoc" }

/-- A retrieval result with a single hit. -/
def sampleCtx : QueryResult :=
  { documents := [["SQL injection basics"]], metadatas := [[sampleMeta]] }

/-- The knowledge-base entry rendering exactly as the claim words it:
`"{heading} (from {title}): {body}"` — written from the claim, to be
compared against `render_context_section`, which is written from the
source. -/
def claimRender (doc : String) (md : PointMeta) : String :=
  md.heading ++ " (from " ++ md.title ++ "): " ++ doc

/-! ## Helper lemmas -/

/-- If the generation backend fails on every input, `generate_response`
degrades to the apology. -/
theorem gen_response_of_error {llm : String → String → Except String String}
    {query : String} {ctx : QueryResult} {platform : Option String}
    {hist : List ConversationEntry}
    (h : ∀ sp u, ∃ e, llm sp u = Except.error e) :
    generate_response llm query ctx platform hist = apology := by
  simp only [generate_response]
  obtain ⟨e, he⟩ :=
    h (system_prompt (build_context_text ctx) (get_platform_context platform)
        (build_history_context hist)) query
  rw [he]

/-- Unfolding equation for one step of the keyword loop. -/
theorem firstKeywordHit_cons (k v : String) (rest : List (String × String)) (t : String) :
    firstKeywordHit ((k, v) :: rest) t
      = if containsSub t k = true then some v else firstKeywordHit rest t := rfl

/-- The keyword loop returns `none` exactly when no keyword is contained in
the lowered topic. -/
theorem firstKeywordHit_eq_none_iff (l : List (String × String)) (t : String) :
    firstKeywordHit l t = none ↔ ∀ kv ∈ l, containsSub t kv.1 = false := by
  induction l with
  | nil => simp [firstKeywordHit]
  | cons kv rest ih =>
    by_cases h : containsSub t kv.1 = true
    · simp [firstKeywordHit, h]
    · simp only [Bool.not_eq_true] at h
      simp [firstKeywordHit, h, ih]

/-- Upserting an id already present leaves the id list unchanged. -/
theorem collectionIds_upsert_mem {coll : List (String × IndexedPoint)} {id : String}
    (pt : IndexedPoint) (h : id ∈ collectionIds coll) :
    collectionIds (collectionUpsert coll id pt) = collectionIds coll := by
  have hany : coll.any (fun e => e.1 = id) = true := by
    obtain ⟨e, he, heq⟩ := List.mem_map.mp h
    exact List.any_eq_true.mpr ⟨e, he, by simp [heq]⟩
  simp only [collectionUpsert, hany, if_true]
  unfold collectionIds
  rw [List.map_map]
  apply List.map_congr_left
  intro e _
  by_cases he : e.1 = id
  · simp [he]
  · simp [he]

/-- Upserting a fresh id appends it to the id list. -/
theorem collectionIds_upsert_not_mem {coll : List (String × IndexedPoint)} {id : String}
    (pt : IndexedPoint) (h : id ∉ collectionIds coll) :
    collectionIds (collectionUpsert coll id pt) = collectionIds coll ++ [id] := by
  have hany : coll.any (fun e => e.1 = id) = false := by
    apply List.any_eq_false.mpr
    intro e he
    simp only [decide_eq_true_eq]
    intro heq
    exact h (List.mem_map.mpr ⟨e, he, heq⟩)
  simp only [collectionUpsert, hany, Bool.false_eq_true, if_false]
  unfold collectionIds
  rw [List.map_append]
  rfl

/-- The upserted id is present afterwards. -/
theorem mem_collectionIds_upsert_self (coll : List (String × IndexedPoint))
    (id : String) (pt : IndexedPoint) :
    id ∈ collectionIds (collectionUpsert coll id pt) := by
  by_cases h : id ∈ collectionIds coll
  · rw [collectionIds_upsert_mem pt h]; exact h
  · rw [collectionIds_upsert_not_mem pt h]
    exact List.mem_append_right _ (List.mem_singleton.mpr rfl)

/-- Upserting never removes ids. -/
theorem mem_collectionIds_upsert_of_mem {a : String} (coll : List (String × IndexedPoint))
    (id : String) (pt : IndexedPoint) (h : a ∈ collectionIds coll) :
    a ∈ collectionIds (collectionUpsert coll id pt) := by
  by_cases hm : id ∈ collectionIds coll
  · rw [collectionIds_upsert_mem pt hm]; exact h
  · rw [collectionIds_upsert_not_mem pt hm]; exact List.mem_append_left _ h

/-- Folding upserts never removes ids. -/
theorem mem_ids_foldl_of_mem {a : String} (pts : List (String × IndexedPoint))
    (coll : List (String × IndexedPoint)) (h : a ∈ collectionIds coll) :
    a ∈ collectionIds (pts.foldl (fun c q => collectionUpsert c q.1 q.2) coll) := by
  induction pts generalizing coll with
  | nil => exact h
  | cons q qs ih => exact ih _ (mem_collectionIds_upsert_of_mem _ _ _ h)

/-- After folding upserts, every written id is present. -/
theorem mem_ids_foldl_of_mem_pts {pts : List (String × IndexedPoint)}
    {p : String × IndexedPoint} (coll : List (String × IndexedPoint)) (hp : p ∈ pts) :
    p.1 ∈ collectionIds (pts.foldl (fun c q => collectionUpsert c q.1 q.2) coll) := by
  induction pts generalizing coll with
  | nil => cases hp
  | cons q qs ih =>
    cases hp with
    | head => exact mem_ids_foldl_of_mem qs _ (mem_collectionIds_upsert_self _ _ _)
    | tail _ h2 => exact ih _ h2

/-- Folding upserts whose ids are all already present leaves the id list
unchanged. -/
theorem ids_foldl_of_all_mem {pts : List (String × IndexedPoint)}
    (coll : List (String × IndexedPoint)) (h : ∀ p ∈ pts, p.1 ∈ collectionIds coll) :
    collectionIds (pts.foldl (fun c q => collectionUpsert c q.1 q.2) coll)
      = collectionIds coll := by
  induction pts generalizing coll with
  | nil => rfl
  | cons q qs ih =>
    have hq : q.1 ∈ collectionIds coll := h q (List.mem_cons_self _ _)
    have hstep := collectionIds_upsert_mem q.2 hq
    have htail : ∀ p ∈ qs, p.1 ∈ collectionIds (collectionUpsert coll q.1 q.2) := by
      intro p hp
      rw [hstep]
      exact h p (List.mem_cons_of_mem _ hp)
    calc collectionIds ((q :: qs).foldl (fun c r => collectionUpsert c r.1 r.2) coll)
        = collectionIds (qs.foldl (fun c r => collectionUpsert c r.1 r.2)
            (collectionUpsert coll q.1 q.2)) := rfl
      _ = collectionIds (collectionUpsert coll q.1 q.2) := ih _ htail
      _ = collectionIds coll := hstep

/-- Upserting keeps the id list duplicate-free. -/
theorem nodup_ids_upsert (coll : List (String × IndexedPoint)) (id : String)
    (pt : IndexedPoint) (h : (collectionIds coll).Nodup) :
    (collectionIds (collectionUpsert coll id pt)).Nodup := by
  by_cases hm : id ∈ collectionIds coll
  · rw [collectionIds_upsert_mem pt hm]; exact h
  · rw [collectionIds_upsert_not_mem pt hm]
    simp [List.nodup_append, h, List.disjoint_singleton, hm]

/-- Folding upserts keeps the id list duplicate-free. -/
theorem nodup_ids_foldl (pts : List (String × IndexedPoint))
    (coll : List (String × IndexedPoint)) (h : (collectionIds coll).Nodup) :
    (collectionIds (pts.foldl (fun c q => collectionUpsert c q.1 q.2) coll)).Nodup := by
  induction pts generalizing coll with
  | nil => exact h
  | cons q qs ih => exact ih _ (nodup_ids_upsert _ _ _ h)

/-- Every point produced from a file carries the id of its section position. -/
theorem filePointsAux_id (fd : FileData) :
    ∀ (secs : List StoredSection) (i0 : Nat) (pr : String × IndexedPoint),
      pr ∈ filePointsAux fd i0 secs →
      ∃ j s, secs.get? j = some s ∧ s.embedding ≠ []
        ∧ pr.1 = sectionId fd.title (i0 + j) := by
  intro secs
  induction secs with
  | nil => intro i0 pr h; cases h
  | cons s rest ih =>
    intro i0 pr h
    by_cases hs : s.embedding ≠ []
    · simp only [filePointsAux, if_pos hs] at h
      cases h with
      | head => exact ⟨0, s, rfl, hs, by simp⟩
      | tail _ h2 =>
        obtain ⟨j, s2, hget, hemb, hid⟩ := ih (i0 + 1) pr h2
        exact ⟨j + 1, s2, by simpa using hget, hemb, by rw [hid]; congr 1; omega⟩
    · simp only [filePointsAux, if_neg hs] at h
      obtain ⟨j, s2, hget, hemb, hid⟩ := ih (i0 + 1) pr h
      exact ⟨j + 1, s2, by simpa using hget, hemb, by rw [hid]; congr 1; omega⟩

/-- A whitespace-only tail does not change the word list, whatever is in
the accumulator. -/
theorem pyWords_all_spaces :
    ∀ (s : List Char), (∀ c ∈ s, isPySpace c = true) →
      ∀ w, pyWords s w = pyWords [] w := by
  intro s
  induction s with
  | nil => intro _ w; rfl
  | cons c cs ih =>
    intro h w
    have hc : isPySpace c = true := h c (List.mem_cons_self _ _)
    have hnil : pyWords cs [] = [] :=
      ih (fun x hx => h x (List.mem_cons_of_mem _ hx)) []
    by_cases hw : w = []
    · subst hw
      simp [pyWords, hc, hnil]
    · simp [pyWords, hc, hnil, hw]

/-- Appending trailing whitespace does not change the word list. -/
theorem pyWords_append_spaces :
    ∀ (l s : List Char), (∀ c ∈ s, isPySpace c = true) →
      ∀ w, pyWords (l ++ s) w = pyWords l w := by
  intro l s hs
  induction l with
  | nil =>
    intro w
    simpa using pyWords_all_spaces s hs w
  | cons c cs ih =>
    intro w
    by_cases hc : isPySpace c = true
    · by_cases hw : w = []
      · subst hw
        show pyWords (c :: (cs ++ s)) [] = pyWords (c :: cs) []
        simp only [pyWords, hc, if_true]
        exact ih []
      · show pyWords (c :: (cs ++ s)) w = pyWords (c :: cs) w
        simp only [pyWords, hc, if_true, if_neg hw]
        rw [ih []]
    · simp only [Bool.not_eq_true] at hc
      show pyWords (c :: (cs ++ s)) w = pyWords (c :: cs) w
      simp only [pyWords, hc, Bool.false_eq_true, if_false]
      exact ih (c :: w)

/-- Dropping leading whitespace does not change the word list. -/
theorem pyWords_dropWhile :
    ∀ l : List Char, pyWords (l.dropWhile isPySpace) [] = pyWords l [] := by
  intro l
  induction l with
  | nil => rfl
  | cons c cs ih =>
    by_cases hc : isPySpace c = true
    · rw [List.dropWhile_cons_of_pos hc, ih]
      simp [pyWords, hc]
    · simp only [Bool.not_eq_true] at hc
      rw [List.dropWhile_cons_of_neg (by simp [hc])]

/-- Stripping does not change the word list. -/
theorem pyWords_pyStripList (l : List Char) :
    pyWords (pyStripList l) [] = pyWords l [] := by
  unfold pyStripList
  have hdecomp : l.dropWhile isPySpace
      = ((l.dropWhile isPySpace).reverse.dropWhile isPySpace).reverse
        ++ ((l.dropWhile isPySpace).reverse.takeWhile isPySpace).reverse := by
    conv_lhs => rw [← List.reverse_reverse (l.dropWhile isPySpace)]
    rw [← List.reverse_append]
    rw [List.takeWhile_append_dropWhile]
  have hsp : ∀ c ∈ ((l.dropWhile isPySpace).reverse.takeWhile isPySpace).reverse,
      isPySpace c = true := by
    intro c hc
    exact List.mem_takeWhile_imp (List.mem_reverse.mp hc)
  calc pyWords (((l.dropWhile isPySpace).reverse.dropWhile isPySpace).reverse) []
      = pyWords (((l.dropWhile isPySpace).reverse.dropWhile isPySpace).reverse
          ++ ((l.dropWhile isPySpace).reverse.takeWhile isPySpace).reverse) [] :=
        (pyWords_append_spaces _ _ hsp []).symm
    _ = pyWords (l.dropWhile isPySpace) [] := by rw [← hdecomp]
    _ = pyWords l [] := pyWords_dropWhile l

/-- Identity `len(s.split()) = len(s.strip().split())`: the stored word count is the
whitespace token count of the stored (stripped) body. -/
theorem pySplit_pyStrip (s : String) : pySplit (pyStrip s) = pySplit s := by
  unfold pySplit pyStrip
  rw [show (String.mk (pyStripList s.toList)).toList = pyStripList s.toList from rfl]
  rw [pyWords_pyStripList]

/-- Unfolding equation: flushing with no current heading emits nothing. -/
theorem flushSection_none (sections : List SectionRec) (cs : String) :
    flushSection sections cs none = sections := rfl

/-- Unfolding equation: flushing with a heading applies the truthiness
checks of the source. -/
theorem flushSection_some (sections : List SectionRec) (cs hd : String) :
    flushSection sections cs (some hd)
      = if cs ≠ "" ∧ hd ≠ "" ∧ pyStrip cs ≠ ""
        then sections ++ [⟨hd, pyStrip cs, (pySplit cs).length⟩]
        else sections := rfl

/-- Function `flushSection` only ever appends sections with a nonempty stripped body
whose word count is the token count of that body. -/
theorem flushSection_good (sections : List SectionRec) (cs : String) (ch : Option String)
    (h : ∀ s ∈ sections, s.content ≠ "" ∧ s.word_count = (pySplit s.content).length) :
    ∀ s ∈ flushSection sections cs ch,
      s.content ≠ "" ∧ s.word_count = (pySplit s.content).length := by
  intro s hs
  cases ch with
  | none => rw [flushSection_none] at hs; exact h s hs
  | some hd =>
    rw [flushSection_some] at hs
    by_cases hc : cs ≠ "" ∧ hd ≠ "" ∧ pyStrip cs ≠ ""
    · rw [if_pos hc] at hs
      rcases List.mem_append.mp hs with h1 | h2
      · exact h s h1
      · have hEq : s = ⟨hd, pyStrip cs, (pySplit cs).length⟩ := List.mem_singleton.mp h2
        subst hEq
        refine ⟨hc.2.2, ?_⟩
        show (pySplit cs).length = (pySplit (pyStrip cs)).length
        rw [pySplit_pyStrip]
    · rw [if_neg hc] at hs
      exact h s hs

/-- Loop invariant: every emitted section has a nonempty body and a word
count equal to the token count of its body. -/
theorem sectionsLoop_good :
    ∀ (lines : List String) (sections : List SectionRec) (cs : String) (ch : Option String),
      (∀ s ∈ sections, s.content ≠ "" ∧ s.word_count = (pySplit s.content).length) →
      ∀ s ∈ sectionsLoop lines sections cs ch,
        s.content ≠ "" ∧ s.word_count = (pySplit s.content).length := by
  intro lines
  induction lines with
  | nil => intro sections cs ch h; exact flushSection_good sections cs ch h
  | cons line rest ih =>
    intro sections cs ch h
    cases hm : headingMatch line with
    | some g2 =>
      simp only [sectionsLoop, hm]
      exact ih _ _ _ (flushSection_good sections cs ch h)
    | none =>
      simp only [sectionsLoop, hm]
      exact ih _ _ _ h

/-- Non-heading lines before the first heading (or before end of input)
leave no trace: they only feed `current_section`, which the `none` heading
state can never flush. -/
theorem sectionsLoop_preamble :
    ∀ (pre : List String), (∀ l ∈ pre, headingMatch l = none) →
      ∀ (rest : List String) (sections : List SectionRec) (cs cs2 : String),
        (rest = [] ∨ ∃ l r2, rest = l :: r2 ∧ (headingMatch l).isSome = true) →
        sectionsLoop (pre ++ rest) sections cs none
          = sectionsLoop rest sections cs2 none := by
  intro pre
  induction pre with
  | nil =>
    intro _ rest sections cs cs2 hrest
    rcases hrest with rfl | ⟨l, r2, rfl, hl⟩
    · rfl
    · obtain ⟨g2, hg⟩ := Option.isSome_iff_exists.mp hl
      simp only [List.nil_append, sectionsLoop, hg]
      rw [flushSection_none, flushSection_none]
  | cons p ps ih =>
    intro hpre rest sections cs cs2 hrest
    have hp : headingMatch p = none := hpre p (List.mem_cons_self _ _)
    simp only [List.cons_append, sectionsLoop, hp]
    exact ih (fun l hl => hpre l (List.mem_cons_of_mem _ hl)) rest sections _ cs2 hrest

/-- After a heading, non-heading lines accumulate into one body that runs to
the end of the input. -/
theorem sectionsLoop_body :
    ∀ (blines : List String), (∀ l ∈ blines, headingMatch l = none) →
      ∀ (cs hd : String),
        sectionsLoop blines [] cs (some hd)
          = flushSection [] (cs ++ joinNl blines) (some hd) := by
  intro blines
  induction blines with
  | nil =>
    intro _ cs hd
    show flushSection [] cs (some hd) = flushSection [] (cs ++ joinNl []) (some hd)
    rw [show joinNl [] = "" from rfl, String.append_empty]
  | cons b bs ih =>
    intro h cs hd
    have hb : headingMatch b = none := h b (List.mem_cons_self _ _)
    simp only [sectionsLoop, hb]
    rw [ih (fun l hl => h l (List.mem_cons_of_mem _ hl)) (cs ++ (b ++ "\n")) hd]
    congr 1
    show cs ++ (b ++ "\n") ++ joinNl bs = cs ++ (b ++ "\n" ++ joinNl bs)
    rw [String.append_assoc cs (b ++ "\n") (joinNl bs)]

/-- Taking `takeWhile (fun c => c = '=')` over an `=` run followed by a space takes exactly
the run. -/
theorem takeWhile_eq_run (m : Nat) (t : List Char) :
    (List.replicate m '=' ++ ' ' :: t).takeWhile (fun c => c = '=')
      = List.replicate m '=' := by
  induction m with
  | zero => simp [List.takeWhile_cons]
  | succ k ih =>
    rw [List.replicate_succ, List.cons_append, List.takeWhile_cons]
    simp [ih]

/-- Dropping `dropWhile (fun c => c = '=')` over an `=` run followed by a space drops exactly
the run. -/
theorem dropWhile_eq_run (m : Nat) (t : List Char) :
    (List.replicate m '=' ++ ' ' :: t).dropWhile (fun c => c = '=')
      = ' ' :: t := by
  induction m with
  | zero => simp [List.dropWhile_cons]
  | succ k ih =>
    rw [List.replicate_succ, List.cons_append, List.dropWhile_cons]
    simp [ih]

/-- Function `headingMatch` on a heading line of any depth: the match succeeds and
the recognised heading text does not depend on the depth. -/
theorem headingMatch_headingLine (n : Nat) (t : String) :
    headingMatch (headingLine n t)
      = some (String.mk (t.toList.dropWhile isPySpace)) := by
  have hdata : (headingLine n t).toList
      = List.replicate (n + 2) '=' ++ ' ' :: t.toList := by
    show ((String.mk (List.replicate (n + 2) '=') ++ " ") ++ t).data
      = List.replicate (n + 2) '=' ++ ' ' :: t.data
    rw [String.data_append, String.data_append]
    simp
  have hdropsp : (List.replicate (n + 2) '=' ++ ' ' :: t.toList).dropWhile isPySpace
      = List.replicate (n + 2) '=' ++ ' ' :: t.toList := by
    rw [List.replicate_succ, List.cons_append, List.dropWhile_cons]
    simp [isPySpace]
  simp only [headingMatch, hdata, hdropsp, takeWhile_eq_run, dropWhile_eq_run,
    List.length_replicate]
  rw [if_pos (by omega)]
  simp [isPySpace]

/-! ## Claim theorems -/

/-- C1: the spec demands a 400-equivalent client error for an empty or
whitespace-only chat message; the code raises its 400 inside the `try`
block, whose blanket `except Exception` catches that very exception and
re-raises it as a 500 — so the request is indeed rejected before any
retriever or generator call (zero chatbot calls) and the conversation state
is unchanged, but the reported status is a 500, not the claimed 400. -/
theorem c1_empty_message_rejected_as_500 :
    ∀ (d : ChatDeps) (hist : List ConversationEntry) (req : ChatRequest),
      pyStrip req.message = "" →
      chat_endpoint d hist req =
        (EndpointResult.httpError 500 "Error processing chat: 400: Message cannot be empty",
          hist, 0) := by
  intro d hist req h
  have hc : req.message = "" ∨ pyStrip req.message = "" := Or.inr h
  simp only [chat_endpoint, chat_endpoint_try, if_pos hc]
  rfl

/-- C1 witness: a whitespace-only message at concrete inputs. -/
theorem c1_empty_message_rejected_as_500_witness :
    chat_endpoint stubDeps [] ⟨"   ", none⟩ =
      (EndpointResult.httpError 500 "Error processing chat: 400: Message cannot be empty",
        [], 0) :=
  c1_empty_message_rejected_as_500 stubDeps [] ⟨"   ", none⟩ (by decide)

/-- C2: an empty embedding short-circuits `search_relevant_content` to the
empty retrieval result — for every possible collection backend the call
list is empty (the vector index is never consulted) — and that result
carries no retrieved (document, metadata) pairs. -/
theorem c2_empty_embedding_short_circuits :
    (∀ (create_embedding : String → List Int) collectionQuery query platform n_results,
        create_embedding query = [] →
        search_relevant_content create_embedding collectionQuery query platform n_results
          = (emptyQueryResult, []))
    ∧ context_entries emptyQueryResult = [] := by
  constructor
  · intro ce cq q p n h
    simp [search_relevant_content, h]
  · rfl

/-- C2 witness: a degraded embedder at concrete inputs. -/
theorem c2_empty_embedding_short_circuits_witness :
    search_relevant_content (fun _ => []) stubCollectionQuery "What is SQL injection?"
        (some "picoCTF") 5
      = (emptyQueryResult, []) :=
  c2_empty_embedding_short_circuits.1 (fun _ => []) stubCollectionQuery
    "What is SQL injection?" (some "picoCTF") 5 rfl

/-- C4 counterexample: the claim puts the append to Conversation State
BEFORE the real-world-impact augmentation; in the code the augmentation
happens first, so the step trace is retrieve, generate, annotate, append —
not the claimed retrieve, generate, append, annotate — and the bot text of the
recorded turn already contains the annotation. -/
theorem c4_append_before_annotate_refuted :
    (chat stubDeps [] "Tell me about sql injection" none).events
      ≠ [ChatEvent.retrieveEv, ChatEvent.generateEv, ChatEvent.appendEv, ChatEvent.annotateEv]
    ∧ (chat stubDeps [] "Tell me about sql injection" none).history.map (fun e => e.bot)
      = ["A stub answer." ++ "\n\n" ++ "💡 **Real-world impact**: SQL injection was used in major breaches like Equifax (2017) and continues to be a top web vulnerability."] := by
  constructor
  · decide
  · decide

/-- C4 (amended): every chat turn returns a response and records exactly one
conversation turn; the steps occur in the order retrieve, compose/generate,
augment with the static real-world-impact annotation, then append the
already-augmented turn, whose bot text equals the returned response. -/
theorem c4_chat_turn_order_amended :
    ∀ (d : ChatDeps) (hist : List ConversationEntry) (msg : String) (platform : Option String),
      (chat d hist msg platform).events
        = [ChatEvent.retrieveEv, ChatEvent.generateEv, ChatEvent.annotateEv, ChatEvent.appendEv]
      ∧ ∃ entry,
          (chat d hist msg platform).history = hist ++ [entry]
          ∧ entry.bot = (chat d hist msg platform).response
          ∧ entry.user = msg ∧ entry.timestamp = d.now := by
  intro d hist msg p
  exact ⟨rfl, ⟨_, rfl, rfl, rfl, rfl⟩⟩

/-- C6: the history block of the composed prompt is the last at-most-3 recorded
turns, oldest-first (a suffix of the history), each rendered as
`User: {user}\nAssistant: {bot clipped to 200 characters}...`; with 5 turns
it is exactly the last 3; and the system prompt embeds the block verbatim. -/
theorem c6_history_block :
    (∀ hist, build_history_context hist
        = String.intercalate "\n"
            ((hist.drop (hist.length - 3)).map render_history_entry))
    ∧ (∀ hist : List ConversationEntry,
        (hist.drop (hist.length - 3)).length ≤ 3
        ∧ hist.drop (hist.length - 3) <:+ hist)
    ∧ (∀ t1 t2 t3 t4 t5 : ConversationEntry,
        build_history_context [t1, t2, t3, t4, t5]
          = String.intercalate "\n"
              [render_history_entry t3, render_history_entry t4, render_history_entry t5])
    ∧ (∀ h : ConversationEntry,
        render_history_entry h
          = "User: " ++ h.user ++ "\nAssistant: " ++ String.mk (h.bot.toList.take 200) ++ "..."
        ∧ (String.mk (h.bot.toList.take 200)).length ≤ 200)
    ∧ (∀ ct pc hc, ∃ pre post, system_prompt ct pc hc = pre ++ hc ++ post) := by
  refine ⟨?_, ?_, ?_, ?_, ?_⟩
  · intro hist
    cases hist with
    | nil => rfl
    | cons a t => simp [build_history_context]
  · intro hist
    constructor
    · simp only [List.length_drop]
      omega
    · exact ⟨hist.take (hist.length - 3), List.take_append_drop _ _⟩
  · intro t1 t2 t3 t4 t5
    rfl
  · intro h
    refine ⟨rfl, ?_⟩
    have hlen : (String.mk (h.bot.toList.take 200)).length
        = (h.bot.toList.take 200).length := rfl
    rw [hlen]
    exact List.length_take_le _ _
  · intro ct pc hc
    exact ⟨promptPersona ++ pc ++ promptTeaching ++ ct ++ promptHistoryHeader,
      promptGuidelines, rfl⟩

/-- C7: the annotator scans the fixed keyword table in order sql, xss,
buffer, crypto, steganography, network; it returns `none` exactly when no
keyword occurs in the lowered text, and any text containing "sql" — even
one also containing "xss" — yields the sql annotation. -/
theorem c7_annotator_first_match :
    (real_world_examples.map Prod.fst
      = ["sql", "xss", "buffer", "crypto", "steganography", "network"])
    ∧ (∀ topic, add_real_world_context topic = none ↔
        ∀ kv ∈ real_world_examples, containsSub (pyLower topic) kv.1 = false)
    ∧ (∀ topic, containsSub (pyLower topic) "sql" = true →
        add_real_world_context topic
          = some "💡 **Real-world impact**: SQL injection was used in major breaches like Equifax (2017) and continues to be a top web vulnerability.") := by
  refine ⟨rfl, ?_, ?_⟩
  · intro topic
    exact firstKeywordHit_eq_none_iff real_world_examples (pyLower topic)
  · intro topic h
    simp only [add_real_world_context, real_world_examples]
    rw [firstKeywordHit_cons, if_pos h]

/-- C7 witness: a text containing both "sql" and "xss" gets the sql
annotation. -/
theorem c7_annotator_first_match_witness :
    containsSub (pyLower "Explain sql and xss attacks") "xss" = true
    ∧ add_real_world_context "Explain sql and xss attacks"
        = some "💡 **Real-world impact**: SQL injection was used in major breaches like Equifax (2017) and continues to be a top web vulnerability." :=
  ⟨by decide, c7_annotator_first_match.2.2 "Explain sql and xss attacks" (by decide)⟩

/-- C8 counterexample: at a one-hit retrieval result the knowledge-base
section is NOT rendered as the claimed `{heading} (from {title}): {body}` —
the code bolds the heading and puts the body on its own line. -/
theorem c8_claim_render_refuted :
    build_context_text sampleCtx
      ≠ String.intercalate "\n\n"
          (((context_entries sampleCtx).map (fun pr => claimRender pr.1 pr.2)).take 3) := by
  decide

/-- C8 (amended): the knowledge-base section of the composed prompt uses only the
first 3 entries of the retrieval result, each rendered as
`**{heading}** (from {title}):\n{body}`, joined by blank lines. -/
theorem c8_context_text_amended :
    ∀ ctx : QueryResult,
      build_context_text ctx
        = String.intercalate "\n\n"
            (((context_entries ctx).take 3).map (fun pr => render_context_section pr.1 pr.2))
      ∧ ((context_entries ctx).take 3).length ≤ 3
      ∧ (∀ doc md, render_context_section doc md
          = "**" ++ md.heading ++ "** (from " ++ md.title ++ "):\n" ++ doc) := by
  intro ctx
  refine ⟨?_, List.length_take_le _ _, fun doc md => rfl⟩
  unfold build_context_text
  rw [List.map_take]

/-- C9: a failing generation backend makes `generate_response` return the
fixed apology instead of propagating the error, and a chat request with a
nonempty message still completes with an ok result (never a 5xx from the
chat flow), the response being the apology possibly followed by the static
annotation. -/
theorem c9_generation_failure_returns_apology :
    (∀ (llm : String → String → Except String String) query ctx platform hist e,
        llm (system_prompt (build_context_text ctx) (get_platform_context platform)
              (build_history_context hist)) query = Except.error e →
        generate_response llm query ctx platform hist = apology)
    ∧ (∀ (d : ChatDeps) (hist : List ConversationEntry) (req : ChatRequest),
        (∀ sp u, ∃ e, d.llm sp u = Except.error e) →
        pyStrip req.message ≠ "" →
        ∃ resp su hist2,
          chat_endpoint d hist req = (EndpointResult.ok resp d.now su, hist2, 1)
          ∧ (resp = apology ∨ ∃ c, resp = apology ++ "\n\n" ++ c)) := by
  constructor
  · intro llm q ctx p hist e h
    simp only [generate_response]
    rw [h]
  · intro d hist req hf hmsg
    have hcond : ¬(req.message = "" ∨ pyStrip req.message = "") := by
      rintro (h | h)
      · exact hmsg (by rw [h]; rfl)
      · exact hmsg h
    have hresp : (chat d hist req.message req.platform).response
        = (match add_real_world_context req.message with
           | some c => apology ++ "\n\n" ++ c
           | none => apology) := by
      simp only [chat]
      rw [gen_response_of_error hf]
    refine ⟨(chat d hist req.message req.platform).response,
      (chat d hist req.message req.platform).sources_used,
      (chat d hist req.message req.platform).history, ?_, ?_⟩
    · simp only [chat_endpoint, chat_endpoint_try, if_neg hcond]
      rfl
    · cases hm : add_real_world_context req.message with
      | none => exact Or.inl (by rw [hresp, hm])
      | some c => exact Or.inr ⟨c, by rw [hresp, hm]⟩

/-- C9 witness: a backend that always raises, at concrete inputs. -/
theorem c9_generation_failure_returns_apology_witness :
    ∃ resp su hist2,
      chat_endpoint failingDeps [] ⟨"What is steganography?", none⟩
        = (EndpointResult.ok resp failingDeps.now su, hist2, 1)
      ∧ (resp = apology ∨ ∃ c, resp = apology ++ "\n\n" ++ c) :=
  c9_generation_failure_returns_apology.2 failingDeps [] ⟨"What is steganography?", none⟩
    (fun _ _ => ⟨"rate limited", rfl⟩) (by decide)

/-- C10: the platform filter handed to the collection is `none` exactly for
a missing or empty-string platform (unfiltered search) and is the platform
itself otherwise; whenever the embedding is nonempty the collection is
queried exactly once, with that filter. -/
theorem c10_platform_filter :
    (∀ platform, build_where_clause platform = none ↔ (platform = none ∨ platform = some ""))
    ∧ (∀ s, s ≠ "" → build_where_clause (some s) = some s)
    ∧ (∀ (create_embedding : String → List Int) collectionQuery query platform n_results,
        create_embedding query ≠ [] →
        (search_relevant_content create_embedding collectionQuery query platform n_results).2
          = [⟨create_embedding query, build_where_clause platform, n_results⟩]) := by
  refine ⟨?_, ?_, ?_⟩
  · intro p
    cases p with
    | none => simp [build_where_clause]
    | some s => by_cases hs : s = "" <;> simp [build_where_clause, hs]
  · intro s hs
    simp [build_where_clause, hs]
  · intro ce cq q p n h
    simp only [search_relevant_content, if_neg h]
    cases cq (ce q) (build_where_clause p) n <;> rfl

/-- C10 witness: a nonempty embedding at concrete inputs produces exactly
one collection call carrying the platform filter. -/
theorem c10_platform_filter_witness :
    (search_relevant_content (fun _ => [1]) stubCollectionQuery "query" (some "picoCTF") 5).2
      = [⟨[1], build_where_clause (some "picoCTF"), 5⟩] :=
  c10_platform_filter.2.2 (fun _ => [1]) stubCollectionQuery "query" (some "picoCTF") 5
    (by decide)

/-- C3: the id of every indexed section is the document title with spaces
replaced by underscores, an underscore, and the position index of the section;
and loading the same corpus twice into the (spec-modelled, keyed-upsert)
index leaves the id list unchanged — same set of ids — while duplicate-free
id lists stay duplicate-free. -/
theorem c3_section_ids_and_idempotent_load :
    (∀ fd : FileData, ∀ pr ∈ filePoints fd,
        ∃ i s, fd.sections.get? i = some s ∧ s.embedding ≠ []
          ∧ pr.1 = underscoreTitle fd.title ++ "_" ++ toString i)
    ∧ (∀ coll corpus,
        collectionIds (load_processed_content (load_processed_content coll corpus) corpus)
          = collectionIds (load_processed_content coll corpus))
    ∧ (∀ coll corpus, (collectionIds coll).Nodup →
        (collectionIds (load_processed_content coll corpus)).Nodup) := by
  refine ⟨?_, ?_, ?_⟩
  · intro fd pr h
    obtain ⟨j, s, hget, hemb, hid⟩ := filePointsAux_id fd fd.sections 0 pr h
    refine ⟨j, s, hget, hemb, ?_⟩
    rw [hid]
    simp [sectionId]
  · intro coll corpus
    apply ids_foldl_of_all_mem
    intro p hp
    exact mem_ids_foldl_of_mem_pts coll hp
  · intro coll corpus h
    exact nodup_ids_foldl _ _ h

/-- C3 witness: the sample corpus loaded into an empty index produces a
duplicate-free id list. -/
theorem c3_section_ids_and_idempotent_load_witness :
    (collectionIds ([] : List (String × IndexedPoint))).Nodup
    ∧ (collectionIds (load_processed_content [] [sampleFile])).Nodup :=
  ⟨by decide, c3_section_ids_and_idempotent_load.2.2 [] [sampleFile] (by decide)⟩

/-- C5: section splitting starts a section at each heading line regardless
of heading depth (the match result is depth-independent), content before
the first heading forms no section, the body of a section runs from its heading
to the next heading or end of input, and every emitted section has a
nonempty body whose word count is the whitespace-split token count of that
body. -/
theorem c5_section_splitting :
    (∀ content, ∀ s ∈ split_into_sections content,
        s.content ≠ "" ∧ s.word_count = (pySplit s.content).length)
    ∧ (∀ n t, headingMatch (headingLine n t)
        = some (String.mk (t.toList.dropWhile isPySpace)))
    ∧ (∀ pre rest, (∀ l ∈ pre, headingMatch l = none) →
        (rest = [] ∨ ∃ l r2, rest = l :: r2 ∧ (headingMatch l).isSome = true) →
        sectionsOfLines (pre ++ rest) = sectionsOfLines rest)
    ∧ (∀ hl g2 blines, headingMatch hl = some g2 →
        (∀ l ∈ blines, headingMatch l = none) →
        sectionsOfLines (hl :: blines)
          = if pyStrip g2 = "" ∨ pyStrip (joinNl blines) = "" then []
            else [⟨pyStrip g2, pyStrip (joinNl blines), (pySplit (joinNl blines)).length⟩]) := by
  refine ⟨?_, headingMatch_headingLine, ?_, ?_⟩
  · intro content s hs
    exact sectionsLoop_good _ [] "" none (by intro x hx; cases hx) s hs
  · intro pre rest hpre hrest
    exact sectionsLoop_preamble pre hpre rest [] "" "" hrest
  · intro hl g2 blines hhl hbl
    show sectionsLoop (hl :: blines) [] "" none = _
    simp only [sectionsLoop, hhl]
    rw [flushSection_none]
    rw [sectionsLoop_body blines hbl "" (pyStrip g2)]
    rw [String.empty_append]
    rw [flushSection_some]
    by_cases h1 : pyStrip g2 = ""
    · rw [if_neg (by simp [h1]), if_pos (Or.inl h1)]
    · by_cases h2 : pyStrip (joinNl blines) = ""
      · rw [if_neg (by simp [h2]), if_pos (Or.inr h2)]
      · have hbody : joinNl blines ≠ "" := by
          intro hb
          exact h2 (by rw [hb]; rfl)
        rw [if_pos ⟨hbody, h1, h2⟩, if_neg (by simp [h1, h2])]
        rfl

/-- C5 witness: preamble discarded, one heading with one body line. -/
theorem c5_section_splitting_witness :
    sectionsOfLines (["preamble text"] ++ ["== Intro", "hello world"])
      = sectionsOfLines ["== Intro", "hello world"]
    ∧ sectionsOfLines ["== Intro", "hello world"]
      = [⟨"Intro", "hello world", 2⟩] := by
  constructor
  · exact c5_section_splitting.2.2.1 ["preamble text"] ["== Intro", "hello world"]
      (by decide) (Or.inr ⟨"== Intro", ["hello world"], rfl, by decide⟩)
  · have h := c5_section_splitting.2.2.2 "== Intro" "Intro" ["hello world"]
      (by decide) (by decide)
    rw [h]
    decide
